import Mathlib

/-!
Shallow embedding of the TenderAPI storage layer (`src/api/storage.go`,
`src/api/api.go`, `src/api/types.go`).

The PostgreSQL database is modelled as a record of tables, each table a list
of rows. SQL statements are modelled as list operations on these tables:
`SELECT ... WHERE` as `List.filter`/`List.find?`, `SELECT EXISTS` as
`List.any`, `DELETE ... WHERE` as `List.filter` with the negated condition,
`INSERT` as appending a row, `MAX(version)` / `ORDER BY version DESC LIMIT 1`
as a maximum over the filtered column, and `QueryRow.Scan` (which takes the
first result row, or fails with `sql: no rows in result set`) as `List.find?`.

Go errors are modelled by the text produced by `fmt.Errorf`, because the
program itself discriminates errors by comparing their formatted text
(`api.go`, `handleTenderRollback` / `handleBidRollback`).  A transaction
(`db.Begin` ... `Commit`/`Rollback`) is modelled by returning the original
database state whenever the operation returns an error, and the fully
updated state only on success.

Executions of `tx.Exec` / `tx.QueryRow` that can fail for environmental
reasons (connection loss, constraint violation) are modelled, where a claim
needs them, by explicit boolean failure flags passed to the embedded
function.
-/

namespace TenderAPI

/-- Row of table `employee` (storage.go, `CreateUserTable`). -/
structure Employee where
  id : String
  username : String
  firstName : String
  lastName : String
deriving Repr, DecidableEq

/-- Row of table `organization_responsible` (storage.go,
`CreateOrganisationResponsibleTable`). -/
structure OrgResponsible where
  id : String
  organizationId : String
  userId : String
deriving Repr, DecidableEq

/-- Row of the tender header table `CreateTenderTable` (storage.go,
`CreateTenderTable`). -/
structure TenderHeader where
  id : String
  serviceType : String
  status : String
  organizationId : String
  creatorUsername : String
deriving Repr, DecidableEq

/-- Row of the bid header table `Bids` (storage.go, `CreateBids`). -/
structure BidHeader where
  id : String
  tenderId : String
  status : String
  organizationId : String
  creatorUsername : String
deriving Repr, DecidableEq

/-- Row of a version table (`CreateTenderVersion` with foreign key
`CreateTenderTable_id`, or `BidsVersion` with foreign key `bid_id`).
`entityId` is that foreign-key column.  The surrogate `id` and the
`created_at` column play no role in any query of the source and are
omitted. -/
structure VersionRow where
  entityId : String
  name : String
  description : String
  version : Int
deriving Repr, DecidableEq

/-- The Go struct `Tender` (types.go). -/
structure Tender where
  id : String
  name : String
  description : String
  serviceType : String
  status : String
  organizationID : String
  creatorUsername : String
deriving Repr, DecidableEq

/-- The Go struct `Bid` (types.go). -/
structure Bid where
  id : String
  name : String
  description : String
  status : String
  tenderId : String
  organizationId : String
  creatorUsername : String
deriving Repr, DecidableEq

/-- The database state: one list of rows per table used by the claims. -/
structure DB where
  employees : List Employee
  orgResponsibles : List OrgResponsible
  tenders : List TenderHeader
  tenderVersions : List VersionRow
  bids : List BidHeader
  bidVersions : List VersionRow
deriving Repr, DecidableEq

/-- The empty database, as produced by `Init` before any request. -/
def initDB : DB := ⟨[], [], [], [], [], []⟩

/-- The `version` column of all version rows belonging to one entity id. -/
def versionsOf (rows : List VersionRow) (entityId : String) : List Int :=
  (rows.filter (fun r => r.entityId == entityId)).map (fun r => r.version)

/-- Maximum of a list of integers (`none` on the empty list); models SQL
`MAX(version)` and `ORDER BY version DESC LIMIT 1`. -/
def listMaxInt : List Int → Option Int
  | [] => none
  | x :: xs =>
    match listMaxInt xs with
    | none => some x
    | some m => some (max x m)

/-- `SELECT MAX(version) FROM <versions> WHERE <fk> = entityId`. -/
def maxVersion (rows : List VersionRow) (entityId : String) : Option Int :=
  listMaxInt (versionsOf rows entityId)

/-- Go's `fmt` renders an `%d` verb applied to a string argument as
`%!d(string=<value>)`.  Both `storage.go` and `api.go` format the tender/bid
id (a string) with `%d`, so both sides produce this same text. -/
def goIntFormatOfString (s : String) : String :=
  "%!d(string=" ++ s ++ ")"

/-- The error text of `fmt.Errorf("version %d does not exist for tender %d",
version, id)` (storage.go, `RollbackTender` and `RollbackBid`). -/
def versionNotExistMsg (version : Int) (entityId : String) : String :=
  "version " ++ toString version ++ " does not exist for tender " ++
    goIntFormatOfString entityId

/-- The error text of `sql.ErrNoRows`. -/
def errNoRows : String := "sql: no rows in result set"

/-- The merged snapshot scanned by `RollbackTender`'s read-back query:
version columns `v.name`, `v.description` joined with the immutable header
columns. -/
def mergeTender (t : TenderHeader) (v : VersionRow) : Tender :=
  ⟨t.id, v.name, v.description, t.serviceType, t.status, t.organizationId,
    t.creatorUsername⟩

/-- The merged snapshot scanned by `RollbackBid`'s read-back query
(this one does select `t.CreateTenderTable_id` into `TenderId`). -/
def mergeBid (b : BidHeader) (v : VersionRow) : Bid :=
  ⟨b.id, v.name, v.description, b.status, b.tenderId, b.organizationId,
    b.creatorUsername⟩

/-- The bid scanned by `GetBidsByUsername` / `GetBidsByTenderId`: those
queries do not select the `CreateTenderTable_id` column, so `TenderId`
keeps the Go zero value `""` of the freshly allocated `&Bid{}`. -/
def scanBidNoTender (b : BidHeader) (v : VersionRow) : Bid :=
  ⟨b.id, v.name, v.description, b.status, "", b.organizationId,
    b.creatorUsername⟩

/-- `SELECT EXISTS (SELECT 1 FROM <versions> WHERE <fk> = $1 AND version = $2)`. -/
def versionExists (rows : List VersionRow) (entityId : String) (version : Int) : Bool :=
  rows.any (fun v => v.entityId == entityId && v.version == version)

/-- `DELETE FROM <versions> WHERE <fk> = $1 AND version > $2`:
keep exactly the rows not matched by the delete condition. -/
def deleteVersionsAbove (rows : List VersionRow) (entityId : String) (version : Int) :
    List VersionRow :=
  rows.filter (fun v => !(v.entityId == entityId && decide (version < v.version)))

/-- The read-back query of `RollbackTender`: join of header and version
tables at `t.id = $1 AND v.version = $2`, scanned with `QueryRow` (first
row). -/
def readBackTender (st : DB) (tenderId : String) (version : Int) : Option Tender :=
  match st.tenders.find? (fun t => t.id == tenderId),
        st.tenderVersions.find? (fun v => v.entityId == tenderId && v.version == version) with
  | some t, some v => some (mergeTender t v)
  | _, _ => none

/-- The read-back query of `RollbackBid`. -/
def readBackBid (st : DB) (bidId : String) (version : Int) : Option Bid :=
  match st.bids.find? (fun b => b.id == bidId),
        st.bidVersions.find? (fun v => v.entityId == bidId && v.version == version) with
  | some b, some v => some (mergeBid b v)
  | _, _ => none

/-- `RollbackTender` (storage.go lines 385-455): inside one transaction,
check the target version exists (else fail with the formatted
version-does-not-exist error), delete all strictly higher versions of the
tender, read back the (id, version) snapshot.  On any error the transaction
is rolled back, so the returned state is the input state. -/
def RollbackTender (st : DB) (tenderId : String) (version : Int) :
    Except String Tender × DB :=
  if versionExists st.tenderVersions tenderId version then
    let cut := { st with
      tenderVersions := deleteVersionsAbove st.tenderVersions tenderId version }
    match readBackTender cut tenderId version with
    | some t => (Except.ok t, cut)
    | none =>
      (Except.error ("failed to retrieve rolled back version: " ++ errNoRows), st)
  else
    (Except.error (versionNotExistMsg version tenderId), st)

/-- `RollbackBid` (storage.go lines 457-526); same shape as
`RollbackTender`, over the `Bids` / `BidsVersion` tables.  (Its
version-not-found message also says "tender": the source reuses the same
format string.) -/
def RollbackBid (st : DB) (bidId : String) (version : Int) :
    Except String Bid × DB :=
  if versionExists st.bidVersions bidId version then
    let cut := { st with
      bidVersions := deleteVersionsAbove st.bidVersions bidId version }
    match readBackBid cut bidId version with
    | some b => (Except.ok b, cut)
    | none =>
      (Except.error ("failed to retrieve rolled back version: " ++ errNoRows), st)
  else
    (Except.error (versionNotExistMsg version bidId), st)

/-- `UpdateTenderById` (storage.go lines 528-590): inside one transaction,
read the current highest version (`ORDER BY version DESC LIMIT 1`; scan
fails with `sql: no rows in result set` if the tender has no versions),
insert a new version row with `version = currentVersion + 1` and the
supplied name/description, re-read the immutable header columns, and return
them with `t.Name`/`t.Description` overwritten by the supplied values (not
re-read from the version table).  The `rowsAffected == 0` branch of the
source is unreachable: a successful single-row `INSERT` always reports one
affected row. -/
def UpdateTenderById (st : DB) (tenderId name description : String) :
    Except String Tender × DB :=
  match maxVersion st.tenderVersions tenderId with
  | none =>
    (Except.error ("failed to retrieve current version: " ++ errNoRows), st)
  | some currentVersion =>
    let newRow : VersionRow := ⟨tenderId, name, description, currentVersion + 1⟩
    -- The header re-read happens after the version insert, but the insert
    -- does not touch the header table, so it reads `st.tenders`.
    match st.tenders.find? (fun t => t.id == tenderId) with
    | none => (Except.error ("failed to retrieve tender: " ++ errNoRows), st)
    | some h =>
      (Except.ok ⟨h.id, name, description, h.serviceType, h.status,
        h.organizationId, h.creatorUsername⟩,
       { st with tenderVersions := st.tenderVersions ++ [newRow] })

/-- `UpdateBidById` (storage.go lines 592-653); same shape over
`BidsVersion` / `Bids`.  The header re-read does scan
`CreateTenderTable_id` into `TenderId`. -/
def UpdateBidById (st : DB) (bidId name description : String) :
    Except String Bid × DB :=
  match maxVersion st.bidVersions bidId with
  | none =>
    (Except.error ("failed to retrieve current version: " ++ errNoRows), st)
  | some currentVersion =>
    let newRow : VersionRow := ⟨bidId, name, description, currentVersion + 1⟩
    -- As for tenders: the header re-read after the version insert reads the
    -- untouched `st.bids`.
    match st.bids.find? (fun b => b.id == bidId) with
    | none => (Except.error ("failed to retrieve tender: " ++ errNoRows), st)
    | some h =>
      (Except.ok ⟨h.id, name, description, h.status, h.tenderId,
        h.organizationId, h.creatorUsername⟩,
       { st with bidVersions := st.bidVersions ++ [newRow] })

/-- `CreateTender` (storage.go lines 343-383): inside one transaction,
insert the header row (`RETURNING id` supplies the generated id, modelled by
the `newId` parameter), then insert the first version row.  The version
`INSERT` omits the `version` column, so the schema default `version = 1`
applies.  `failHeader` / `failVersion` model an environmental failure of the
respective statement; either failure rolls the whole transaction back. -/
def CreateTender (st : DB) (t : Tender) (newId : String)
    (failHeader failVersion : Bool) : Except String Tender × DB :=
  if failHeader then
    (Except.error "failed to insert CreateTenderTable: pq: insert failed", st)
  else if failVersion then
    (Except.error "failed to insert CreateTenderVersion: pq: insert failed", st)
  else
    (Except.ok { t with id := newId },
     { st with
       tenders := st.tenders ++
         [⟨newId, t.serviceType, t.status, t.organizationID, t.creatorUsername⟩],
       tenderVersions := st.tenderVersions ++
         [⟨newId, t.name, t.description, 1⟩] })

/-- `CreateBid` (storage.go lines 305-341); same shape over `Bids` /
`BidsVersion` (the source's error message for the version insert indeed
says "CreateTenderVersion"). -/
def CreateBid (st : DB) (b : Bid) (newId : String)
    (failHeader failVersion : Bool) : Except String Bid × DB :=
  if failHeader then
    (Except.error "failed to insert bid: pq: insert failed", st)
  else if failVersion then
    (Except.error "failed to insert CreateTenderVersion: pq: insert failed", st)
  else
    (Except.ok { b with id := newId },
     { st with
       bids := st.bids ++
         [⟨newId, b.tenderId, b.status, b.organizationId, b.creatorUsername⟩],
       bidVersions := st.bidVersions ++
         [⟨newId, b.name, b.description, 1⟩] })

/-- `isValidTenderCreator` (storage.go lines 667-696).  `QueryRow.Scan`
into a string variable leaves the variable at the Go zero value `""` and
returns `sql.ErrNoRows` when the query yields no row.  The source tests the
scanned variable against `""` and returns early (with that scan error)
before running the second query, so the second lookup is skipped whenever
the first finds no employee. -/
def isValidTenderCreator (st : DB) (name orgId : String) : Bool × Option String :=
  let empRow := st.employees.find? (fun e => e.username == name)
  let idUsername := (empRow.map (fun e => e.id)).getD ""
  let empErr : Option String := if empRow.isNone then some errNoRows else none
  if idUsername == "" then (false, empErr)
  else
    let respRow := st.orgResponsibles.find?
      (fun r => r.organizationId == orgId && r.userId == idUsername)
    let idOrgResp := (respRow.map (fun r => r.id)).getD ""
    let respErr : Option String := if respRow.isNone then some errNoRows else none
    if idOrgResp == "" then (false, respErr)
    else (true, none)

/-- `GetTendersByUsername` (storage.go lines 857-905): header/version join
where `v.version` equals the correlated `MAX(version)` of the header's own
versions, filtered by `creator_username = $1`. -/
def GetTendersByUsername (st : DB) (username : String) : List Tender :=
  st.tenders.flatMap (fun t =>
    (st.tenderVersions.filter (fun v =>
      v.entityId == t.id &&
      decide (maxVersion st.tenderVersions t.id = some v.version) &&
      t.creatorUsername == username)).map (mergeTender t))

/-- `GetBidsByUsername` (storage.go lines 752-799): same correlated-max
join over bids; the `SELECT` list has no `CreateTenderTable_id` column, so
the scanned `Bid` keeps `TenderId = ""`. -/
def GetBidsByUsername (st : DB) (username : String) : List Bid :=
  st.bids.flatMap (fun b =>
    (st.bidVersions.filter (fun v =>
      v.entityId == b.id &&
      decide (maxVersion st.bidVersions b.id = some v.version) &&
      b.creatorUsername == username)).map (scanBidNoTender b))

/-- The derived table `bv_max` of `GetBidsByTenderId`:
`SELECT bid_id, MAX(version) AS max_version FROM BidsVersion GROUP BY bid_id`.
One pair per distinct `bid_id` occurring in the version table, carrying that
group's maximum version (groups are nonempty, so the maximum exists). -/
def groupMaxVersions (rows : List VersionRow) : List (String × Int) :=
  ((rows.map (fun r => r.entityId)).dedup).filterMap
    (fun i => (listMaxInt (versionsOf rows i)).map (fun m => (i, m)))

/-- `GetBidsByTenderId` (storage.go lines 816-855): join of `Bids` with the
group-by-max derived table and with `BidsVersion` at the maximal version,
filtered by `CreateTenderTable_id = $1`.  No `CreateTenderTable_id` column
is selected, so `TenderId = ""` on every scanned bid. -/
def GetBidsByTenderId (st : DB) (tenderId : String) : List Bid :=
  st.bids.flatMap (fun b =>
    (groupMaxVersions st.bidVersions).flatMap (fun p =>
      if b.id == p.1 && b.tenderId == tenderId then
        (st.bidVersions.filter (fun v => v.entityId == p.1 && v.version == p.2)).map
          (scanBidNoTender b)
      else []))

/-- The raw SQL text of `GetAllTenders` (storage.go lines 909-930), exactly
as written in the source (a Go raw string literal containing tabs). -/
def getAllTendersBaseQuery : String :=
  "\n\tSELECT \n\t    t.id,\n\t    v.name,\n\t    v.description,\n\t\tt.service_type,\n\t\tt.status,\n\t\tt.organization_id,\n\t\tt.creator_username\t\n\tFROM \n\t\tCreateTenderTable t\n\tJOIN \n\t\tCreateTenderVersion v \n\tON \n\t\tt.id = v.CreateTenderTable_id\n\tWHERE \n\t\tv.version = (\n\t\t\tSELECT MAX(version)\n\t\t\tFROM CreateTenderVersion\n\t\t\tWHERE CreateTenderTable_id = t.id\n\t\t)\n    "

/-- The query string actually sent by `GetAllTenders`: when the service
type filter is non-empty the source appends a second `WHERE` clause
(`query += " WHERE service_type = $1"`) after the one already present. -/
def buildGetAllTendersQuery (serviceType : String) : String :=
  if serviceType == "" then getAllTendersBaseQuery
  else getAllTendersBaseQuery ++ " WHERE service_type = $1"

/-- Number of occurrences of the keyword `WHERE` at parenthesis depth 0 of
a character stream.  A SQL `SELECT` statement admits at most one top-level
`WHERE` clause; PostgreSQL rejects a statement with two as a syntax
error. -/
def countTopLevelWhere : List Char → Nat → Nat
  | [], _ => 0
  | '(' :: rest, depth => countTopLevelWhere rest (depth + 1)
  | ')' :: rest, depth => countTopLevelWhere rest (depth - 1)
  | 'W' :: 'H' :: 'E' :: 'R' :: 'E' :: rest, depth =>
    (if depth = 0 then 1 else 0) + countTopLevelWhere rest depth
  | _ :: rest, depth => countTopLevelWhere rest depth

/-- Model of PostgreSQL's acceptance of the query strings `GetAllTenders`
can build: a `SELECT` with more than one top-level `WHERE` clause is a
syntax error. -/
def sqlAccepts (query : String) : Bool :=
  decide (countTopLevelWhere query.data 0 ≤ 1)

/-- The rows scanned by `GetAllTenders` when its query is accepted: the
unrestricted correlated-max join of the base query (the accepted branch is
only reachable with the empty service-type filter, where the source applies
no restriction). -/
def latestTenderJoinRows (st : DB) : List Tender :=
  st.tenders.flatMap (fun t =>
    (st.tenderVersions.filter (fun v =>
      v.entityId == t.id &&
      decide (maxVersion st.tenderVersions t.id = some v.version))).map
      (mergeTender t))

/-- `GetAllTenders` (storage.go lines 907-966): builds the query string,
sends it, and on success scans the correlated-max join rows.  When the
built query is malformed (the appended second `WHERE`), `db.Query` returns
the PostgreSQL syntax error wrapped by the source's
`failed to query CreateTenderTables: %w`. -/
def GetAllTenders (st : DB) (serviceType : String) : Except String (List Tender) :=
  if sqlAccepts (buildGetAllTendersQuery serviceType) then
    Except.ok (latestTenderJoinRows st)
  else
    Except.error "failed to query CreateTenderTables: pq: syntax error at or near \"WHERE\""

/-- An HTTP response: status code and (JSON) body text. -/
structure HTTPResponse where
  status : Nat
  body : String
deriving Repr, DecidableEq

/-- `http.StatusOK`. -/
def statusOK : Nat := 200

/-- `http.StatusBadRequest`. -/
def statusBadRequest : Nat := 400

/-- Go's `fmt.Errorf` appends `%!(EXTRA int=<n>)` when given an `int`
argument with no matching verb, as in
`fmt.Errorf("Version does not exist", http.StatusBadRequest)`. -/
def goExtraInt (n : Nat) : String := "%!(EXTRA int=" ++ toString n ++ ")"

/-- `makeHTTPHandleFunc` (api.go lines 422-429): a handler's successful
response passes through; any error returned by the handler is written with
`WriteJSON(w, http.StatusBadRequest, ApiError{err.Error()})`. -/
def makeHTTPHandleFunc (result : Except String HTTPResponse) : HTTPResponse :=
  match result with
  | Except.ok resp => resp
  | Except.error e => ⟨statusBadRequest, e⟩

/-- The error-mapping of `handleTenderRollback` (api.go lines 298-324) for
a PUT request whose id and version parsed: calls the store, compares a
failure's text against the formatted version-does-not-exist message, and
returns either the 200 response with the tender body, or an error value
(to be turned into a response by `makeHTTPHandleFunc`). -/
def handleTenderRollback (st : DB) (tenderId : String) (version : Int)
    (encodeTender : Tender → String) : Except String HTTPResponse × DB :=
  let r := RollbackTender st tenderId version
  match r.1 with
  | Except.error e =>
    (if e == versionNotExistMsg version tenderId then
      Except.error ("Version does not exist" ++ goExtraInt statusBadRequest)
    else
      Except.error ("Error rolling back tender: " ++ e), r.2)
  | Except.ok t => (Except.ok ⟨statusOK, encodeTender t⟩, r.2)

/-- The error-mapping of `handleBidRollback` (api.go lines 348-374); the
source's messages are identical to the tender handler's. -/
def handleBidRollback (st : DB) (bidId : String) (version : Int)
    (encodeBid : Bid → String) : Except String HTTPResponse × DB :=
  let r := RollbackBid st bidId version
  match r.1 with
  | Except.error e =>
    (if e == versionNotExistMsg version bidId then
      Except.error ("Version does not exist" ++ goExtraInt statusBadRequest)
    else
      Except.error ("Error rolling back tender: " ++ e), r.2)
  | Except.ok b => (Except.ok ⟨statusOK, encodeBid b⟩, r.2)

/-- The full HTTP pipeline for a tender rollback request: handler output
fed through `makeHTTPHandleFunc`. -/
def tenderRollbackEndpoint (st : DB) (tenderId : String) (version : Int)
    (encodeTender : Tender → String) : HTTPResponse × DB :=
  let r := handleTenderRollback st tenderId version encodeTender
  (makeHTTPHandleFunc r.1, r.2)

/-- The full HTTP pipeline for a bid rollback request. -/
def bidRollbackEndpoint (st : DB) (bidId : String) (version : Int)
    (encodeBid : Bid → String) : HTTPResponse × DB :=
  let r := handleBidRollback st bidId version encodeBid
  (makeHTTPHandleFunc r.1, r.2)

/-- Go's `fmt.Errorf` renders an extra `error` argument that is `nil` as
`%!(EXTRA <nil>)`, as in
`fmt.Errorf("Invalid creator username for the given organization", err)`
on the path where `err` is `nil`. -/
def invalidCreatorMsg : String :=
  "Invalid creator username for the given organization%!(EXTRA <nil>)"

/-- `createNewBid` (api.go lines 48-74) for a POST request whose body
decoded into `b`: run the authorization check; propagate its error if any;
reject with the invalid-creator message if it returned `false` without
error; otherwise run `CreateBid`. -/
def createNewBid (st : DB) (b : Bid) (newId : String)
    (failHeader failVersion : Bool) : Except String Bid × DB :=
  let vr := isValidTenderCreator st b.creatorUsername b.organizationId
  match vr.2 with
  | some e => (Except.error e, st)
  | none =>
    if !vr.1 then (Except.error invalidCreatorMsg, st)
    else CreateBid st b newId failHeader failVersion

/-- `createNewTender` (api.go lines 76-102); same shape over
`CreateTender`. -/
def createNewTender (st : DB) (t : Tender) (newId : String)
    (failHeader failVersion : Bool) : Except String Tender × DB :=
  let vr := isValidTenderCreator st t.creatorUsername t.organizationID
  match vr.2 with
  | some e => (Except.error e, st)
  | none =>
    if !vr.1 then (Except.error invalidCreatorMsg, st)
    else CreateTender st t newId failHeader failVersion

/-! ## Helper lemmas -/

/-- A `find?` hit survives filtering by any predicate it implies. -/
lemma find?_filter_of_imp {α : Type} (l : List α) (p q : α → Bool) (a : α)
    (h : l.find? p = some a) (himp : ∀ x, p x = true → q x = true) :
    (l.filter q).find? p = some a := by
  induction l with
  | nil => simp at h
  | cons x xs ih =>
    rw [List.filter_cons]
    by_cases hp : p x
    · rw [List.find?_cons_of_pos _ hp] at h
      injection h with h2
      subst h2
      rw [if_pos (himp x hp), List.find?_cons_of_pos _ hp]
    · rw [List.find?_cons_of_neg _ hp] at h
      by_cases hq : q x
      · rw [if_pos hq, List.find?_cons_of_neg _ hp]
        exact ih h
      · rw [if_neg hq]
        exact ih h

/-- No string starting with "version " equals one starting with "failed to ":
the version-not-found message is distinct from every wrapped generic storage
error of the rollback operations. -/
lemma versionNotExistMsg_ne_failed (k : Int) (entityId s : String) :
    versionNotExistMsg k entityId ≠ "failed to " ++ s := by
  intro hEq
  have h2 := congrArg String.data hEq
  simp only [versionNotExistMsg, goIntFormatOfString, String.data_append] at h2
  simp only [List.cons_append, List.append_assoc, List.cons.injEq] at h2
  exact absurd h2.1 (by decide)

/-- The read-back join of `RollbackTender` in terms of its two `find?`
scrutinees. -/
lemma readBackTender_eq (st : DB) (tid : String) (k : Int) (h : TenderHeader)
    (v : VersionRow)
    (hh : st.tenders.find? (fun t => t.id == tid) = some h)
    (hv : st.tenderVersions.find? (fun r => r.entityId == tid && r.version == k) = some v) :
    readBackTender st tid k = some (mergeTender h v) := by
  unfold readBackTender
  rw [hh, hv]

/-- The read-back join of `RollbackBid` in terms of its two `find?`
scrutinees. -/
lemma readBackBid_eq (st : DB) (bidId : String) (k : Int) (h : BidHeader)
    (v : VersionRow)
    (hh : st.bids.find? (fun b => b.id == bidId) = some h)
    (hv : st.bidVersions.find? (fun r => r.entityId == bidId && r.version == k) = some v) :
    readBackBid st bidId k = some (mergeBid h v) := by
  unfold readBackBid
  rw [hh, hv]

/-- Successful rollback of a tender: with the target version row and the
header row present, the result is the merged snapshot and the state keeps
exactly the rows not strictly above the target. -/
lemma rollbackTender_spec (st : DB) (tid : String) (k : Int)
    (h : TenderHeader) (v : VersionRow)
    (hh : st.tenders.find? (fun t => t.id == tid) = some h)
    (hv : st.tenderVersions.find? (fun r => r.entityId == tid && r.version == k) = some v) :
    RollbackTender st tid k =
      (Except.ok (mergeTender h v),
       { st with tenderVersions := deleteVersionsAbove st.tenderVersions tid k }) := by
  have hp := List.find?_some hv
  have hm := List.mem_of_find?_eq_some hv
  have hex : versionExists st.tenderVersions tid k = true :=
    List.any_eq_true.mpr ⟨v, hm, hp⟩
  have hkeep : (deleteVersionsAbove st.tenderVersions tid k).find?
      (fun r => r.entityId == tid && r.version == k) = some v := by
    refine find?_filter_of_imp _ _ _ _ hv ?_
    intro x hx
    simp only [Bool.and_eq_true, beq_iff_eq] at hx
    simp [hx.1, hx.2]
  have hrb : readBackTender
      { st with tenderVersions := deleteVersionsAbove st.tenderVersions tid k } tid k
      = some (mergeTender h v) :=
    readBackTender_eq _ tid k h v hh hkeep
  simp [RollbackTender, hex, hrb]

/-- Successful rollback of a bid (same shape as `rollbackTender_spec`). -/
lemma rollbackBid_spec (st : DB) (bidId : String) (k : Int)
    (h : BidHeader) (v : VersionRow)
    (hh : st.bids.find? (fun b => b.id == bidId) = some h)
    (hv : st.bidVersions.find? (fun r => r.entityId == bidId && r.version == k) = some v) :
    RollbackBid st bidId k =
      (Except.ok (mergeBid h v),
       { st with bidVersions := deleteVersionsAbove st.bidVersions bidId k }) := by
  have hp := List.find?_some hv
  have hm := List.mem_of_find?_eq_some hv
  have hex : versionExists st.bidVersions bidId k = true :=
    List.any_eq_true.mpr ⟨v, hm, hp⟩
  have hkeep : (deleteVersionsAbove st.bidVersions bidId k).find?
      (fun r => r.entityId == bidId && r.version == k) = some v := by
    refine find?_filter_of_imp _ _ _ _ hv ?_
    intro x hx
    simp only [Bool.and_eq_true, beq_iff_eq] at hx
    simp [hx.1, hx.2]
  have hrb : readBackBid
      { st with bidVersions := deleteVersionsAbove st.bidVersions bidId k } bidId k
      = some (mergeBid h v) :=
    readBackBid_eq _ bidId k h v hh hkeep
  simp [RollbackBid, hex, hrb]

/-- Rollback to a missing tender version: the formatted
version-does-not-exist error, and the returned state is the input state. -/
lemma rollbackTender_missing (st : DB) (tid : String) (k : Int)
    (hne : ∀ r ∈ st.tenderVersions, ¬(r.entityId = tid ∧ r.version = k)) :
    RollbackTender st tid k = (Except.error (versionNotExistMsg k tid), st) := by
  have hex : versionExists st.tenderVersions tid k = false := by
    simp only [versionExists, List.any_eq_false, Bool.and_eq_true, beq_iff_eq, not_and]
    intro r hr h1 h2
    exact hne r hr ⟨h1, h2⟩
  simp [RollbackTender, hex]

/-- Rollback to a missing bid version. -/
lemma rollbackBid_missing (st : DB) (bidId : String) (k : Int)
    (hne : ∀ r ∈ st.bidVersions, ¬(r.entityId = bidId ∧ r.version = k)) :
    RollbackBid st bidId k = (Except.error (versionNotExistMsg k bidId), st) := by
  have hex : versionExists st.bidVersions bidId k = false := by
    simp only [versionExists, List.any_eq_false, Bool.and_eq_true, beq_iff_eq, not_and]
    intro r hr h1 h2
    exact hne r hr ⟨h1, h2⟩
  simp [RollbackBid, hex]

/-! ## Claim C1 -/

/-- C1: for every tender (and bid) id and every target version `k` that
exists for that id (with the header present, as the foreign key
guarantees), rollback deletes exactly the version rows of that id with
version strictly greater than `k` (the state equation keeps precisely the
rows not matched by the delete condition, so rows with version at most `k`
and rows of other entities are untouched), and returns the snapshot merging
the version row found at exactly `(id, k)` with the header's immutable
fields. -/
theorem claim1_rollback_truncates_and_returns_snapshot
    (st : DB) (tid : String) (k : Int) (h : TenderHeader) (v : VersionRow)
    (bst : DB) (bidId : String) (bk : Int) (bh : BidHeader) (bv : VersionRow)
    (hh : st.tenders.find? (fun t => t.id == tid) = some h)
    (hv : st.tenderVersions.find? (fun r => r.entityId == tid && r.version == k) = some v)
    (hbh : bst.bids.find? (fun b => b.id == bidId) = some bh)
    (hbv : bst.bidVersions.find? (fun r => r.entityId == bidId && r.version == bk) = some bv) :
    RollbackTender st tid k =
      (Except.ok (mergeTender h v),
       { st with tenderVersions := deleteVersionsAbove st.tenderVersions tid k }) ∧
    RollbackBid bst bidId bk =
      (Except.ok (mergeBid bh bv),
       { bst with bidVersions := deleteVersionsAbove bst.bidVersions bidId bk }) :=
  ⟨rollbackTender_spec st tid k h v hh hv, rollbackBid_spec bst bidId bk bh bv hbh hbv⟩

def tHeadC1 : TenderHeader := ⟨"t1", "Construction", "CREATED", "o1", "alice"⟩

def vRowC1 : VersionRow := ⟨"t1", "Road works", "Phase 1", 1⟩

def bHeadC1 : BidHeader := ⟨"b1", "t1", "CREATED", "o2", "bob"⟩

def bvRowC1 : VersionRow := ⟨"b1", "Offer", "Bid phase 1", 1⟩

def stC1 : DB :=
  ⟨[], [], [tHeadC1],
   [vRowC1, ⟨"t1", "Road works", "Phase 2", 2⟩, ⟨"t1", "Road works", "Phase 3", 3⟩],
   [bHeadC1],
   [bvRowC1, ⟨"b1", "Offer", "Bid phase 2", 2⟩]⟩

/-- Witness for C1 at a concrete store: tender `t1` with versions 1..3 and
bid `b1` with versions 1..2, both rolled back to version 1. -/
theorem claim1_rollback_witness :
    stC1.tenders.find? (fun t => t.id == "t1") = some tHeadC1 ∧
    stC1.tenderVersions.find? (fun r => r.entityId == "t1" && r.version == 1) = some vRowC1 ∧
    stC1.bids.find? (fun b => b.id == "b1") = some bHeadC1 ∧
    stC1.bidVersions.find? (fun r => r.entityId == "b1" && r.version == 1) = some bvRowC1 ∧
    (RollbackTender stC1 "t1" 1 =
      (Except.ok (mergeTender tHeadC1 vRowC1),
       { stC1 with tenderVersions := deleteVersionsAbove stC1.tenderVersions "t1" 1 }) ∧
     RollbackBid stC1 "b1" 1 =
      (Except.ok (mergeBid bHeadC1 bvRowC1),
       { stC1 with bidVersions := deleteVersionsAbove stC1.bidVersions "b1" 1 })) :=
  ⟨by decide, by decide, by decide, by decide,
   claim1_rollback_truncates_and_returns_snapshot stC1 "t1" 1 tHeadC1 vRowC1
     stC1 "b1" 1 bHeadC1 bvRowC1 (by decide) (by decide) (by decide) (by decide)⟩

/-! ## Claim C2 -/

/-- C2: for every id and every version `k` with no version row at `(id, k)`,
rollback fails with exactly the formatted version-not-found error — which is
distinct from every generic storage error of the operation (all of which
start with "failed to ") — and the returned state is exactly the input
state: no version row of any entity is deleted or modified.  The shape of
the embedded function itself shows the existence check precedes the delete,
and the unchanged state models the enclosing transaction. -/
theorem claim2_rollback_missing_version
    (st : DB) (tid : String) (k : Int) (bst : DB) (bidId : String) (bk : Int)
    (hne : ∀ r ∈ st.tenderVersions, ¬(r.entityId = tid ∧ r.version = k))
    (hbne : ∀ r ∈ bst.bidVersions, ¬(r.entityId = bidId ∧ r.version = bk)) :
    RollbackTender st tid k = (Except.error (versionNotExistMsg k tid), st) ∧
    RollbackBid bst bidId bk = (Except.error (versionNotExistMsg bk bidId), bst) ∧
    (∀ s : String, versionNotExistMsg k tid ≠ "failed to " ++ s) ∧
    (∀ s : String, versionNotExistMsg bk bidId ≠ "failed to " ++ s) :=
  ⟨rollbackTender_missing st tid k hne, rollbackBid_missing bst bidId bk hbne,
   fun s => versionNotExistMsg_ne_failed k tid s,
   fun s => versionNotExistMsg_ne_failed bk bidId s⟩

def stC2 : DB :=
  ⟨[], [], [⟨"t1", "Delivery", "CREATED", "o1", "alice"⟩],
   [⟨"t1", "Cargo", "v1", 1⟩, ⟨"t1", "Cargo", "v2", 2⟩],
   [⟨"b1", "t1", "CREATED", "o2", "bob"⟩],
   [⟨"b1", "Offer", "v1", 1⟩]⟩

/-- Witness for C2 at a concrete store: rollback of tender `t1` to the
absent version 7 and of bid `b1` to the absent version 3 both fail with the
version-not-found message and leave the store untouched. -/
theorem claim2_rollback_missing_witness :
    (∀ r ∈ stC2.tenderVersions, ¬(r.entityId = "t1" ∧ r.version = 7)) ∧
    (∀ r ∈ stC2.bidVersions, ¬(r.entityId = "b1" ∧ r.version = 3)) ∧
    (RollbackTender stC2 "t1" 7 = (Except.error (versionNotExistMsg 7 "t1"), stC2) ∧
     RollbackBid stC2 "b1" 3 = (Except.error (versionNotExistMsg 3 "b1"), stC2) ∧
     (∀ s : String, versionNotExistMsg 7 "t1" ≠ "failed to " ++ s) ∧
     (∀ s : String, versionNotExistMsg 3 "b1" ≠ "failed to " ++ s)) :=
  ⟨by decide, by decide,
   claim2_rollback_missing_version stC2 "t1" 7 stC2 "b1" 3 (by decide) (by decide)⟩

/-! ## Claim C3 -/

/-- An empty list has no maximum. -/
lemma listMaxInt_eq_none {l : List Int} : listMaxInt l = none ↔ l = [] := by
  cases l with
  | nil => simp [listMaxInt]
  | cons x xs =>
    simp only [listMaxInt]
    cases listMaxInt xs <;> simp

/-- Updating a tender with no version rows fails with the wrapped
no-rows error, leaving the state unchanged. -/
lemma updateTender_no_version (st : DB) (tid name description : String)
    (h0 : versionsOf st.tenderVersions tid = []) :
    UpdateTenderById st tid name description =
      (Except.error ("failed to retrieve current version: " ++ errNoRows), st) := by
  have hmv : maxVersion st.tenderVersions tid = none := by
    rw [maxVersion, h0]
    rfl
  simp [UpdateTenderById, hmv]

/-- Updating a tender whose current maximum version is `m` appends exactly
the row `(tid, name, description, m + 1)` and returns the header merged
with the supplied name/description. -/
lemma updateTender_ok (st : DB) (tid name description : String) (m : Int)
    (h : TenderHeader)
    (hmax : maxVersion st.tenderVersions tid = some m)
    (hh : st.tenders.find? (fun t => t.id == tid) = some h) :
    UpdateTenderById st tid name description =
      (Except.ok ⟨h.id, name, description, h.serviceType, h.status,
        h.organizationId, h.creatorUsername⟩,
       { st with tenderVersions :=
           st.tenderVersions ++ [⟨tid, name, description, m + 1⟩] }) := by
  simp [UpdateTenderById, hmax, hh]

/-- Updating a bid with no version rows fails with the wrapped no-rows
error, leaving the state unchanged. -/
lemma updateBid_no_version (st : DB) (bidId name description : String)
    (h0 : versionsOf st.bidVersions bidId = []) :
    UpdateBidById st bidId name description =
      (Except.error ("failed to retrieve current version: " ++ errNoRows), st) := by
  have hmv : maxVersion st.bidVersions bidId = none := by
    rw [maxVersion, h0]
    rfl
  simp [UpdateBidById, hmv]

/-- Updating a bid whose current maximum version is `m` appends exactly the
row `(bidId, name, description, m + 1)` and returns the header merged with
the supplied name/description. -/
lemma updateBid_ok (st : DB) (bidId name description : String) (m : Int)
    (h : BidHeader)
    (hmax : maxVersion st.bidVersions bidId = some m)
    (hh : st.bids.find? (fun b => b.id == bidId) = some h) :
    UpdateBidById st bidId name description =
      (Except.ok ⟨h.id, name, description, h.status, h.tenderId,
        h.organizationId, h.creatorUsername⟩,
       { st with bidVersions :=
           st.bidVersions ++ [⟨bidId, name, description, m + 1⟩] }) := by
  simp [UpdateBidById, hmax, hh]

/-- C3: for every id, updating fails with the (wrapped `sql.ErrNoRows`)
not-found error and leaves the state unchanged when no version row exists
for the id; otherwise it appends exactly one version row carrying the
supplied name and description with version = current maximum + 1, and the
returned entity is the re-read immutable header merged with the supplied
name and description (the equations hold whatever data the version table
holds, so nothing is re-read from it). -/
theorem claim3_update_appends_next_version
    (st : DB) (tid tname tdescription : String)
    (bst : DB) (bidId bname bdescription : String) :
    (versionsOf st.tenderVersions tid = [] →
      UpdateTenderById st tid tname tdescription =
        (Except.error ("failed to retrieve current version: " ++ errNoRows), st)) ∧
    (∀ m h, maxVersion st.tenderVersions tid = some m →
      st.tenders.find? (fun t => t.id == tid) = some h →
      UpdateTenderById st tid tname tdescription =
        (Except.ok ⟨h.id, tname, tdescription, h.serviceType, h.status,
          h.organizationId, h.creatorUsername⟩,
         { st with tenderVersions :=
             st.tenderVersions ++ [⟨tid, tname, tdescription, m + 1⟩] })) ∧
    (versionsOf bst.bidVersions bidId = [] →
      UpdateBidById bst bidId bname bdescription =
        (Except.error ("failed to retrieve current version: " ++ errNoRows), bst)) ∧
    (∀ m h, maxVersion bst.bidVersions bidId = some m →
      bst.bids.find? (fun b => b.id == bidId) = some h →
      UpdateBidById bst bidId bname bdescription =
        (Except.ok ⟨h.id, bname, bdescription, h.status, h.tenderId,
          h.organizationId, h.creatorUsername⟩,
         { bst with bidVersions :=
             bst.bidVersions ++ [⟨bidId, bname, bdescription, m + 1⟩] })) :=
  ⟨fun h0 => updateTender_no_version st tid tname tdescription h0,
   fun m h hm hh => updateTender_ok st tid tname tdescription m h hm hh,
   fun h0 => updateBid_no_version bst bidId bname bdescription h0,
   fun m h hm hh => updateBid_ok bst bidId bname bdescription m h hm hh⟩

def hC3 : TenderHeader := ⟨"t1", "IT", "PUBLISHED", "o1", "alice"⟩

def bhC3 : BidHeader := ⟨"b1", "t1", "CREATED", "o2", "bob"⟩

def stC3 : DB :=
  ⟨[], [], [hC3],
   [⟨"t1", "a", "x", 1⟩, ⟨"t1", "b", "y", 2⟩],
   [bhC3], [⟨"b1", "c", "z", 1⟩]⟩

/-- Witness for C3 at a concrete store: updating the unknown ids `t9`/`b9`
fails without a state change, and updating `t1` (versions 1, 2) and `b1`
(version 1) appends versions 3 and 2 respectively. -/
theorem claim3_update_witness :
    versionsOf stC3.tenderVersions "t9" = [] ∧
    maxVersion stC3.tenderVersions "t1" = some 2 ∧
    stC3.tenders.find? (fun t => t.id == "t1") = some hC3 ∧
    versionsOf stC3.bidVersions "b9" = [] ∧
    maxVersion stC3.bidVersions "b1" = some 1 ∧
    stC3.bids.find? (fun b => b.id == "b1") = some bhC3 ∧
    UpdateTenderById stC3 "t9" "N" "D" =
      (Except.error ("failed to retrieve current version: " ++ errNoRows), stC3) ∧
    UpdateTenderById stC3 "t1" "N" "D" =
      (Except.ok ⟨"t1", "N", "D", "IT", "PUBLISHED", "o1", "alice"⟩,
       { stC3 with tenderVersions := stC3.tenderVersions ++ [⟨"t1", "N", "D", 3⟩] }) ∧
    UpdateBidById stC3 "b9" "N" "D" =
      (Except.error ("failed to retrieve current version: " ++ errNoRows), stC3) ∧
    UpdateBidById stC3 "b1" "N" "D" =
      (Except.ok ⟨"b1", "N", "D", "CREATED", "t1", "o2", "bob"⟩,
       { stC3 with bidVersions := stC3.bidVersions ++ [⟨"b1", "N", "D", 2⟩] }) :=
  ⟨by decide, by decide, by decide, by decide, by decide, by decide,
   (claim3_update_appends_next_version stC3 "t9" "N" "D" stC3 "b9" "N" "D").1
     (by decide),
   (claim3_update_appends_next_version stC3 "t1" "N" "D" stC3 "b1" "N" "D").2.1
     2 hC3 (by decide) (by decide),
   (claim3_update_appends_next_version stC3 "t9" "N" "D" stC3 "b9" "N" "D").2.2.1
     (by decide),
   (claim3_update_appends_next_version stC3 "t1" "N" "D" stC3 "b1" "N" "D").2.2.2
     1 bhC3 (by decide) (by decide)⟩

/-! ## Claim C4 -/

/-- Membership in the version numbers of an entity. -/
lemma mem_versionsOf {rows : List VersionRow} {id : String} {m : Int} :
    m ∈ versionsOf rows id ↔ ∃ r ∈ rows, r.entityId = id ∧ r.version = m := by
  simp [versionsOf, beq_iff_eq, and_assoc]

/-- The maximum is a member of the list. -/
lemma listMaxInt_mem : ∀ {l : List Int} {m : Int}, listMaxInt l = some m → m ∈ l := by
  intro l
  induction l with
  | nil => intro m h; simp [listMaxInt] at h
  | cons x xs ih =>
    intro m h
    simp only [listMaxInt] at h
    cases hxs : listMaxInt xs with
    | none =>
      rw [hxs] at h
      injection h with h
      subst h
      exact List.mem_cons_self _ _
    | some mx =>
      rw [hxs] at h
      injection h with h
      subst h
      rcases max_choice x mx with hc | hc
      · rw [hc]; exact List.mem_cons_self _ _
      · rw [hc]; exact List.mem_cons_of_mem _ (ih hxs)

/-- The maximum is an upper bound of the list. -/
lemma listMaxInt_ub : ∀ {l : List Int} {m : Int}, listMaxInt l = some m → ∀ x ∈ l, x ≤ m := by
  intro l
  induction l with
  | nil => intro m h; simp [listMaxInt] at h
  | cons a xs ih =>
    intro m h x hx
    simp only [listMaxInt] at h
    cases hxs : listMaxInt xs with
    | none =>
      rw [hxs] at h
      injection h with h
      subst h
      have hnil : xs = [] := listMaxInt_eq_none.mp hxs
      subst hnil
      simp at hx
      subst hx
      rfl
    | some mx =>
      rw [hxs] at h
      injection h with h
      subst h
      rcases List.mem_cons.mp hx with rfl | hmem
      · exact le_max_left _ _
      · exact le_trans (ih hxs x hmem) (le_max_right _ _)

/-- Density of an entity's version numbers: they are exactly `{1, …, N}`
for some `N`. -/
def denseVersions (rows : List VersionRow) (entityId : String) : Prop :=
  ∃ N : Nat, ∀ k : Int, k ∈ versionsOf rows entityId ↔ 1 ≤ k ∧ k ≤ (N : Int)

/-- The invariant of C4: every tender id and every bid id has a dense
version set. -/
def VersionInvariant (st : DB) : Prop :=
  (∀ id, denseVersions st.tenderVersions id) ∧ ∀ id, denseVersions st.bidVersions id

/-- Appending a row of the same entity appends its version number. -/
lemma versionsOf_append_self (rows : List VersionRow) (r : VersionRow) (id : String)
    (h : r.entityId = id) :
    versionsOf (rows ++ [r]) id = versionsOf rows id ++ [r.version] := by
  simp [versionsOf, List.filter_append, List.filter_cons, h]

/-- Appending a row of a different entity leaves the versions unchanged. -/
lemma versionsOf_append_other (rows : List VersionRow) (r : VersionRow) (id : String)
    (h : r.entityId ≠ id) :
    versionsOf (rows ++ [r]) id = versionsOf rows id := by
  simp [versionsOf, List.filter_append, List.filter_cons, h]

/-- Creation: appending a version-1 row for a fresh id preserves density. -/
lemma dense_append_fresh (rows : List VersionRow) (newId n d : String) (id : String)
    (hdense : denseVersions rows id)
    (hfresh : ∀ v ∈ rows, v.entityId ≠ newId) :
    denseVersions (rows ++ [(⟨newId, n, d, 1⟩ : VersionRow)]) id := by
  by_cases hid : id = newId
  · subst hid
    refine ⟨1, fun k => ?_⟩
    rw [versionsOf_append_self _ _ _ rfl]
    have hnone : versionsOf rows id = [] := by
      rcases hv : versionsOf rows id with _ | ⟨x, xs⟩
      · rfl
      · exfalso
        have hx : x ∈ versionsOf rows id := by rw [hv]; exact List.mem_cons_self _ _
        obtain ⟨r, hr, hEq, _⟩ := mem_versionsOf.mp hx
        exact hfresh r hr hEq
    rw [hnone]
    simp
    omega
  · obtain ⟨N, hN⟩ := hdense
    refine ⟨N, fun k => ?_⟩
    rw [versionsOf_append_other _ _ _ (fun hc => hid hc.symm)]
    exact hN k

/-- Edit: appending a row with version `max + 1` preserves density (the
maximum of a dense set `{1, …, N}` is `N`). -/
lemma dense_append_next (rows : List VersionRow) (tid n d : String) (m : Int)
    (id : String)
    (hmax : maxVersion rows tid = some m)
    (hdense : ∀ j, denseVersions rows j) :
    denseVersions (rows ++ [(⟨tid, n, d, m + 1⟩ : VersionRow)]) id := by
  by_cases hid : id = tid
  · subst hid
    obtain ⟨N, hN⟩ := hdense id
    have hmem : m ∈ versionsOf rows id := listMaxInt_mem hmax
    have hub : ∀ x ∈ versionsOf rows id, x ≤ m := listMaxInt_ub hmax
    have hm_le := (hN m).mp hmem
    have hN_pos : 1 ≤ (N : Int) := le_trans hm_le.1 hm_le.2
    have hNmem : (N : Int) ∈ versionsOf rows id := (hN N).mpr ⟨hN_pos, le_refl _⟩
    have hmN : m = (N : Int) := le_antisymm hm_le.2 (hub _ hNmem)
    refine ⟨N + 1, fun k => ?_⟩
    rw [versionsOf_append_self _ _ _ rfl]
    simp only [List.mem_append, List.mem_singleton, hN k]
    push_cast
    omega
  · obtain ⟨N, hN⟩ := hdense id
    refine ⟨N, fun k => ?_⟩
    rw [versionsOf_append_other _ _ _ (fun hc => hid hc.symm)]
    exact hN k

/-- The delete of rollback keeps exactly the versions at most the cutoff
for the target entity, and everything of other entities. -/
lemma versionsOf_deleteAbove (rows : List VersionRow) (tid : String) (c : Int)
    (id : String) (m : Int) :
    m ∈ versionsOf (deleteVersionsAbove rows tid c) id ↔
      (m ∈ versionsOf rows id ∧ (id = tid → m ≤ c)) := by
  rw [mem_versionsOf, mem_versionsOf]
  unfold deleteVersionsAbove
  constructor
  · rintro ⟨r, hr, hEq, hVer⟩
    obtain ⟨hmem, hcond⟩ := List.mem_filter.mp hr
    refine ⟨⟨r, hmem, hEq, hVer⟩, ?_⟩
    intro hid
    subst hid
    subst hEq
    simp only [beq_self_eq_true, Bool.true_and, Bool.not_eq_true',
      decide_eq_false_iff_not, not_lt] at hcond
    omega
  · rintro ⟨⟨r, hmem, hEq, hVer⟩, himp⟩
    refine ⟨r, List.mem_filter.mpr ⟨hmem, ?_⟩, hEq, hVer⟩
    by_cases hrt : r.entityId = tid
    · have hidt : id = tid := by rw [← hEq, hrt]
      have hle := himp hidt
      simp [hrt, hVer]
      omega
    · simp [hrt]

/-- A positive existence check yields a member version. -/
lemma versionExists_mem {rows : List VersionRow} {tid : String} {k : Int}
    (h : versionExists rows tid k = true) : k ∈ versionsOf rows tid := by
  obtain ⟨r, hr, hp⟩ := List.any_eq_true.mp h
  simp only [Bool.and_eq_true, beq_iff_eq] at hp
  exact mem_versionsOf.mpr ⟨r, hr, hp.1, hp.2⟩

/-- Rollback: truncating at an existing version preserves density. -/
lemma dense_truncate (rows : List VersionRow) (tid : String) (c : Int) (id : String)
    (hc : c ∈ versionsOf rows tid)
    (hdense : ∀ j, denseVersions rows j) :
    denseVersions (deleteVersionsAbove rows tid c) id := by
  by_cases hid : id = tid
  · subst hid
    obtain ⟨N, hN⟩ := hdense id
    have hc' := (hN c).mp hc
    refine ⟨c.toNat, fun m => ?_⟩
    rw [versionsOf_deleteAbove, hN m]
    simp only [eq_self_iff_true, true_implies]
    omega
  · obtain ⟨N, hN⟩ := hdense id
    refine ⟨N, fun m => ?_⟩
    rw [versionsOf_deleteAbove, hN m]
    constructor
    · rintro ⟨hm, _⟩
      exact hm
    · intro hm
      exact ⟨hm, fun hEq => absurd hEq hid⟩

/-- One storage mutation of the versioned-entity subsystem: creation (with
a database-generated fresh header id — `uuid_generate_v4` on a primary-key
column never reuses an id, so no version row carries it), edit, or
rollback, of a tender or a bid, with any outcome (the failure branches
return the unchanged state). -/
inductive StoreStep : DB → DB → Prop
  | createTender (st : DB) (t : Tender) (newId : String) (fh fv : Bool)
      (hfresh : ∀ v ∈ st.tenderVersions, v.entityId ≠ newId) :
      StoreStep st (CreateTender st t newId fh fv).2
  | createBid (st : DB) (b : Bid) (newId : String) (fh fv : Bool)
      (hfresh : ∀ v ∈ st.bidVersions, v.entityId ≠ newId) :
      StoreStep st (CreateBid st b newId fh fv).2
  | updateTender (st : DB) (id name description : String) :
      StoreStep st (UpdateTenderById st id name description).2
  | updateBid (st : DB) (id name description : String) :
      StoreStep st (UpdateBidById st id name description).2
  | rollbackTender (st : DB) (id : String) (version : Int) :
      StoreStep st (RollbackTender st id version).2
  | rollbackBid (st : DB) (id : String) (version : Int) :
      StoreStep st (RollbackBid st id version).2

/-- Every storage mutation preserves the density invariant. -/
lemma invariant_step (st st' : DB) (hinv : VersionInvariant st)
    (hstep : StoreStep st st') : VersionInvariant st' := by
  cases hstep with
  | createTender t newId fh fv hfresh =>
    cases fh with
    | true => simpa [CreateTender] using hinv
    | false =>
      cases fv with
      | true => simpa [CreateTender] using hinv
      | false =>
        exact ⟨fun id => dense_append_fresh _ _ _ _ _ (hinv.1 id) hfresh,
               fun id => hinv.2 id⟩
  | createBid b newId fh fv hfresh =>
    cases fh with
    | true => simpa [CreateBid] using hinv
    | false =>
      cases fv with
      | true => simpa [CreateBid] using hinv
      | false =>
        exact ⟨fun id => hinv.1 id,
               fun id => dense_append_fresh _ _ _ _ _ (hinv.2 id) hfresh⟩
  | updateTender id name description =>
    unfold UpdateTenderById
    cases hmv : maxVersion st.tenderVersions id with
    | none => simpa using hinv
    | some m =>
      cases hfind : st.tenders.find? (fun t => t.id == id) with
      | none => simpa using hinv
      | some h =>
        exact ⟨fun j => dense_append_next _ _ _ _ _ _ hmv hinv.1,
               fun j => hinv.2 j⟩
  | updateBid id name description =>
    unfold UpdateBidById
    cases hmv : maxVersion st.bidVersions id with
    | none => simpa using hinv
    | some m =>
      cases hfind : st.bids.find? (fun b => b.id == id) with
      | none => simpa using hinv
      | some h =>
        exact ⟨fun j => hinv.1 j,
               fun j => dense_append_next _ _ _ _ _ _ hmv hinv.2⟩
  | rollbackTender id version =>
    unfold RollbackTender
    by_cases hex : versionExists st.tenderVersions id version = true
    · rw [if_pos hex]
      have hkmem := versionExists_mem hex
      dsimp only
      cases hrb : readBackTender
          { st with tenderVersions := deleteVersionsAbove st.tenderVersions id version }
          id version with
      | none => simpa using hinv
      | some t =>
        exact ⟨fun j => dense_truncate _ _ _ _ hkmem hinv.1,
               fun j => hinv.2 j⟩
    · rw [if_neg hex]
      exact hinv
  | rollbackBid id version =>
    unfold RollbackBid
    by_cases hex : versionExists st.bidVersions id version = true
    · rw [if_pos hex]
      have hkmem := versionExists_mem hex
      dsimp only
      cases hrb : readBackBid
          { st with bidVersions := deleteVersionsAbove st.bidVersions id version }
          id version with
      | none => simpa using hinv
      | some b =>
        exact ⟨fun j => hinv.1 j,
               fun j => dense_truncate _ _ _ _ hkmem hinv.2⟩
    · rw [if_neg hex]
      exact hinv

/-- The empty database satisfies the density invariant. -/
lemma invariant_initDB : VersionInvariant initDB := by
  refine ⟨fun id => ⟨0, fun k => ?_⟩, fun id => ⟨0, fun k => ?_⟩⟩ <;>
    · simp [versionsOf, initDB]
      omega

/-- C4: the density invariant — for every tender (and bid) id, the stored
version numbers are exactly `{1, …, N}` with no gaps — holds in the initial
empty store and is preserved by every storage mutation (creation with its
database-generated fresh id inserts version 1, a successful edit appends
exactly max + 1, rollback truncates the tail at an existing version, and
every failing branch leaves the state unchanged), hence by every sequence
of create, edit, and rollback operations. -/
theorem claim4_versions_dense_invariant :
    VersionInvariant initDB ∧
    ∀ st st', VersionInvariant st → StoreStep st st' → VersionInvariant st' :=
  ⟨invariant_initDB, fun st st' hinv hstep => invariant_step st st' hinv hstep⟩

/-- Witness for C4: the invariant holds in the empty store, and is carried
by the preservation half across a concrete creation step. -/
theorem claim4_invariant_witness :
    VersionInvariant initDB ∧
    VersionInvariant
      (CreateTender initDB
        ⟨"", "Road works", "Phase 1", "Construction", "CREATED", "o1", "alice"⟩
        "t1" false false).2 :=
  ⟨claim4_versions_dense_invariant.1,
   claim4_versions_dense_invariant.2 _ _ claim4_versions_dense_invariant.1
     (StoreStep.createTender initDB
       ⟨"", "Road works", "Phase 1", "Construction", "CREATED", "o1", "alice"⟩
       "t1" false false (by simp [initDB]))⟩

/-! ## Claims C5 and C6 -/

/-- Membership in `GetTendersByUsername`: exactly the merges of a header
owned by the user with that header's maximum-version row. -/
lemma mem_getTendersByUsername (st : DB) (u : String) (x : Tender) :
    x ∈ GetTendersByUsername st u ↔
      ∃ t ∈ st.tenders, ∃ v ∈ st.tenderVersions,
        v.entityId = t.id ∧
        maxVersion st.tenderVersions t.id = some v.version ∧
        t.creatorUsername = u ∧ mergeTender t v = x := by
  simp only [GetTendersByUsername, List.mem_flatMap, List.mem_map, List.mem_filter,
    Bool.and_eq_true, beq_iff_eq, decide_eq_true_eq]
  tauto

/-- Membership in `GetBidsByUsername`: exactly the scans of a header owned
by the user with that header's maximum-version row. -/
lemma mem_getBidsByUsername (st : DB) (u : String) (x : Bid) :
    x ∈ GetBidsByUsername st u ↔
      ∃ b ∈ st.bids, ∃ v ∈ st.bidVersions,
        v.entityId = b.id ∧
        maxVersion st.bidVersions b.id = some v.version ∧
        b.creatorUsername = u ∧ scanBidNoTender b v = x := by
  simp only [GetBidsByUsername, List.mem_flatMap, List.mem_map, List.mem_filter,
    Bool.and_eq_true, beq_iff_eq, decide_eq_true_eq]
  tauto

/-- Membership in the accepted-query result of `GetAllTenders`: exactly
the merges of each header with its maximum-version row. -/
lemma mem_latestTenderJoinRows (st : DB) (x : Tender) :
    x ∈ latestTenderJoinRows st ↔
      ∃ t ∈ st.tenders, ∃ v ∈ st.tenderVersions,
        v.entityId = t.id ∧
        maxVersion st.tenderVersions t.id = some v.version ∧
        mergeTender t v = x := by
  simp only [latestTenderJoinRows, List.mem_flatMap, List.mem_map, List.mem_filter,
    Bool.and_eq_true, beq_iff_eq, decide_eq_true_eq]
  tauto

/-- Membership in the `GROUP BY bid_id, MAX(version)` derived table. -/
lemma mem_groupMaxVersions (rows : List VersionRow) (p : String × Int) :
    p ∈ groupMaxVersions rows ↔
      (∃ r ∈ rows, r.entityId = p.1) ∧ maxVersion rows p.1 = some p.2 := by
  unfold groupMaxVersions
  rw [List.mem_filterMap]
  constructor
  · rintro ⟨i, hi, hmap⟩
    rcases hmx : listMaxInt (versionsOf rows i) with _ | m
    · rw [hmx] at hmap
      simp at hmap
    · rw [hmx] at hmap
      simp only [Option.map_some', Option.some.injEq] at hmap
      subst hmap
      have hmem := List.mem_dedup.mp hi
      obtain ⟨r, hr, hEq⟩ := List.mem_map.mp hmem
      exact ⟨⟨r, hr, hEq⟩, hmx⟩
  · rintro ⟨⟨r, hr, hEq⟩, hmax⟩
    refine ⟨p.1, List.mem_dedup.mpr (List.mem_map.mpr ⟨r, hr, hEq⟩), ?_⟩
    rw [show listMaxInt (versionsOf rows p.1) = some p.2 from hmax]
    rfl

/-- Membership in `GetBidsByTenderId`: exactly the scans of a header owned
by the tender with that header's maximum-version row (the group-by-max join
is equivalent to the correlated maximum). -/
lemma mem_getBidsByTenderId (st : DB) (tid : String) (x : Bid) :
    x ∈ GetBidsByTenderId st tid ↔
      ∃ b ∈ st.bids, b.tenderId = tid ∧
        ∃ v ∈ st.bidVersions, v.entityId = b.id ∧
          maxVersion st.bidVersions b.id = some v.version ∧
          scanBidNoTender b v = x := by
  unfold GetBidsByTenderId
  rw [List.mem_flatMap]
  constructor
  · rintro ⟨b, hb, hx⟩
    rw [List.mem_flatMap] at hx
    obtain ⟨p, hp, hxin⟩ := hx
    by_cases hcond : (b.id == p.1 && b.tenderId == tid) = true
    · rw [if_pos hcond] at hxin
      simp only [Bool.and_eq_true, beq_iff_eq] at hcond
      obtain ⟨hid, htid⟩ := hcond
      obtain ⟨v, hv, hxeq⟩ := List.mem_map.mp hxin
      obtain ⟨hvmem, hvcond⟩ := List.mem_filter.mp hv
      simp only [Bool.and_eq_true, beq_iff_eq] at hvcond
      obtain ⟨hve, hvv⟩ := hvcond
      obtain ⟨_, hmax⟩ := (mem_groupMaxVersions st.bidVersions p).mp hp
      refine ⟨b, hb, htid, v, hvmem, ?_, ?_, hxeq⟩
      · rw [hve, ← hid]
      · rw [← hid] at hmax
        rw [hmax, hvv]
    · rw [if_neg hcond] at hxin
      simp at hxin
  · rintro ⟨b, hb, htid, v, hv, hve, hmax, hxeq⟩
    refine ⟨b, hb, ?_⟩
    rw [List.mem_flatMap]
    refine ⟨(b.id, v.version), ?_, ?_⟩
    · exact (mem_groupMaxVersions st.bidVersions (b.id, v.version)).mpr
        ⟨⟨v, hv, hve⟩, hmax⟩
    · have hcond : (b.id == (b.id, v.version).1 && b.tenderId == tid) = true := by
        simp [htid]
      rw [if_pos hcond]
      refine List.mem_map.mpr ⟨v, List.mem_filter.mpr ⟨hv, ?_⟩, hxeq⟩
      simp [hve]

/-- With the empty service-type filter the built query is the accepted base
query and `GetAllTenders` returns the join rows. -/
lemma getAllTenders_empty_ok (st : DB) :
    GetAllTenders st "" = Except.ok (latestTenderJoinRows st) := by
  have hacc : sqlAccepts (buildGetAllTendersQuery "") = true := by decide
  simp [GetAllTenders, hacc]

def stC5 : DB :=
  ⟨[], [], [⟨"t5", "Construction", "CREATED", "o1", "alice"⟩],
   [⟨"t5", "Road works", "Phase 1", 1⟩, ⟨"t5", "Road works", "Phase 2", 2⟩],
   [], []⟩

/-- C5: the three username/tender-id queries and the accepted (empty-filter)
branch of `GetAllTenders` return, for each matching header row, exactly the
merge with the row at the maximum version for that header id — the
membership characterisations hold at every store state, in particular
immediately after a rollback.  The final conjunct exhibits the bug that
keeps the claim from holding for all four queries as stated: with a
non-empty service-type filter `GetAllTenders` sends a query with a second
top-level `WHERE` clause and returns a storage error instead of the
filtered maximum-version rows. -/
theorem claim5_latest_version_queries :
    (∀ st u x, x ∈ GetTendersByUsername st u ↔
      ∃ t ∈ st.tenders, ∃ v ∈ st.tenderVersions,
        v.entityId = t.id ∧
        maxVersion st.tenderVersions t.id = some v.version ∧
        t.creatorUsername = u ∧ mergeTender t v = x) ∧
    (∀ st u x, x ∈ GetBidsByUsername st u ↔
      ∃ b ∈ st.bids, ∃ v ∈ st.bidVersions,
        v.entityId = b.id ∧
        maxVersion st.bidVersions b.id = some v.version ∧
        b.creatorUsername = u ∧ scanBidNoTender b v = x) ∧
    (∀ st tid x, x ∈ GetBidsByTenderId st tid ↔
      ∃ b ∈ st.bids, b.tenderId = tid ∧
        ∃ v ∈ st.bidVersions, v.entityId = b.id ∧
          maxVersion st.bidVersions b.id = some v.version ∧
          scanBidNoTender b v = x) ∧
    (∀ st, GetAllTenders st "" = Except.ok (latestTenderJoinRows st)) ∧
    (∀ st x, x ∈ latestTenderJoinRows st ↔
      ∃ t ∈ st.tenders, ∃ v ∈ st.tenderVersions,
        v.entityId = t.id ∧
        maxVersion st.tenderVersions t.id = some v.version ∧
        mergeTender t v = x) ∧
    GetAllTenders stC5 "Construction" =
      Except.error "failed to query CreateTenderTables: pq: syntax error at or near \"WHERE\"" :=
  ⟨mem_getTendersByUsername, mem_getBidsByUsername, mem_getBidsByTenderId,
   getAllTenders_empty_ok, mem_latestTenderJoinRows, rfl⟩

def stC6 : DB :=
  ⟨[], [], [⟨"t1", "Construction", "CREATED", "o1", "alice"⟩],
   [⟨"t1", "Road works", "Phase 1", 1⟩, ⟨"t1", "Road works", "Phase 2", 2⟩],
   [], []⟩

/-- C6: with the empty filter the built query has one top-level `WHERE`
and `GetAllTenders` returns the latest version of every tender (and the
empty sequence — not an error — on an empty store); with a non-empty filter
the source appends a second top-level `WHERE` clause, so the query is
rejected and the call returns a storage error instead of the tenders whose
service type matches — evaluated here on a store that does contain a
matching tender. -/
theorem claim6_getalltenders_filter :
    countTopLevelWhere (buildGetAllTendersQuery "").data 0 = 1 ∧
    countTopLevelWhere (buildGetAllTendersQuery "Construction").data 0 = 2 ∧
    GetAllTenders stC6 "Construction" =
      Except.error "failed to query CreateTenderTables: pq: syntax error at or near \"WHERE\"" ∧
    GetAllTenders stC6 "" =
      Except.ok [⟨"t1", "Road works", "Phase 2", "Construction", "CREATED", "o1", "alice"⟩] ∧
    GetAllTenders ⟨[], [], [], [], [], []⟩ "" = Except.ok [] :=
  ⟨by decide, by decide, rfl, rfl, rfl⟩

/-! ## Claim C7 -/

/-- With no employee row for the username, the check returns `false`
together with the scan's `sql.ErrNoRows` — whatever the
`organization_responsible` table holds, since it is never consulted. -/
lemma isValid_no_employee (st : DB) (u o : String)
    (h : ∀ e ∈ st.employees, e.username ≠ u) :
    isValidTenderCreator st u o = (false, some errNoRows) := by
  have hfind : st.employees.find? (fun e => e.username == u) = none := by
    rw [List.find?_eq_none]
    intro e he
    simp [h e he]
  simp [isValidTenderCreator, hfind]

/-- With the employee found but no `organization_responsible` row linking
it to the organization, the check returns `false` with the second scan's
`sql.ErrNoRows`. -/
lemma isValid_no_link (st : DB) (u o : String) (e : Employee)
    (hfind : st.employees.find? (fun x => x.username == u) = some e)
    (hid : e.id ≠ "")
    (hnolink : ∀ r ∈ st.orgResponsibles, ¬(r.organizationId = o ∧ r.userId = e.id)) :
    isValidTenderCreator st u o = (false, some errNoRows) := by
  have hfind2 : st.orgResponsibles.find?
      (fun r => r.organizationId == o && r.userId == e.id) = none := by
    rw [List.find?_eq_none]
    intro r hr
    simp only [Bool.and_eq_true, beq_iff_eq, not_and]
    intro h1 h2
    exact hnolink r hr ⟨h1, h2⟩
  simp [isValidTenderCreator, hfind, hfind2, hid]

/-- In a well-formed store (non-empty generated ids, unique usernames) the
check returns `true` exactly when the employee row and its
responsibility link to the organization both exist. -/
lemma isValid_true_iff (st : DB) (u o : String)
    (hemp : ∀ e ∈ st.employees, e.id ≠ "")
    (hresp : ∀ r ∈ st.orgResponsibles, r.id ≠ "")
    (huniq : (st.employees.map (fun e => e.username)).Nodup) :
    (isValidTenderCreator st u o).1 = true ↔
      ∃ e ∈ st.employees, e.username = u ∧
        ∃ r ∈ st.orgResponsibles, r.organizationId = o ∧ r.userId = e.id := by
  constructor
  · intro htrue
    unfold isValidTenderCreator at htrue
    cases hfe : st.employees.find? (fun x => x.username == u) with
    | none =>
      rw [hfe] at htrue
      simp at htrue
    | some e =>
      have hemem := List.mem_of_find?_eq_some hfe
      have heu : e.username = u := by simpa using List.find?_some hfe
      rw [hfe] at htrue
      simp only [Option.map_some', Option.getD_some] at htrue
      by_cases hid : e.id = ""
      · simp [hid] at htrue
      · rw [if_neg (by simp [hid])] at htrue
        cases hfr : st.orgResponsibles.find?
            (fun r => r.organizationId == o && r.userId == e.id) with
        | none =>
          simp [hfr] at htrue
        | some r =>
          have hrmem := List.mem_of_find?_eq_some hfr
          have hrp := List.find?_some hfr
          simp only [Bool.and_eq_true, beq_iff_eq] at hrp
          exact ⟨e, hemem, heu, r, hrmem, hrp.1, hrp.2⟩
  · rintro ⟨e, he, heu, r, hr, hro, hru⟩
    have hsome : (st.employees.find? (fun x => x.username == u)).isSome := by
      rw [List.find?_isSome]
      exact ⟨e, he, by simp [heu]⟩
    obtain ⟨e₀, hfe⟩ := Option.isSome_iff_exists.mp hsome
    have he₀mem := List.mem_of_find?_eq_some hfe
    have he₀u : e₀.username = u := by
      simpa using List.find?_some hfe
    have heq : e₀ = e :=
      List.inj_on_of_nodup_map huniq he₀mem he (by rw [he₀u, heu])
    subst heq
    have heid := hemp e₀ he₀mem
    have hsome2 : (st.orgResponsibles.find?
        (fun x => x.organizationId == o && x.userId == e₀.id)).isSome := by
      rw [List.find?_isSome]
      refine ⟨r, hr, ?_⟩
      simp [hro, hru]
    obtain ⟨r₀, hfr⟩ := Option.isSome_iff_exists.mp hsome2
    have hr₀id := hresp r₀ (List.mem_of_find?_eq_some hfr)
    simp [isValidTenderCreator, hfe, hfr, heid, hr₀id]

/-- C7: in a well-formed store (non-empty generated ids, the schema's
unique usernames), `isValidTenderCreator` returns `false` when no employee
row has the username — independently of the whole
`organization_responsible` table, which models the short-circuit —,
returns `false` when the employee is found but no responsibility row links
its id to the organization, and returns `true` exactly when both rows
exist. -/
theorem claim7_is_valid_tender_creator
    (st : DB) (u o : String)
    (hemp : ∀ e ∈ st.employees, e.id ≠ "")
    (hresp : ∀ r ∈ st.orgResponsibles, r.id ≠ "")
    (huniq : (st.employees.map (fun e => e.username)).Nodup) :
    ((∀ e ∈ st.employees, e.username ≠ u) →
      ∀ rsp : List OrgResponsible,
        isValidTenderCreator { st with orgResponsibles := rsp } u o
          = (false, some errNoRows)) ∧
    (∀ e, st.employees.find? (fun x => x.username == u) = some e →
      (∀ r ∈ st.orgResponsibles, ¬(r.organizationId = o ∧ r.userId = e.id)) →
      isValidTenderCreator st u o = (false, some errNoRows)) ∧
    ((isValidTenderCreator st u o).1 = true ↔
      ∃ e ∈ st.employees, e.username = u ∧
        ∃ r ∈ st.orgResponsibles, r.organizationId = o ∧ r.userId = e.id) := by
  refine ⟨?_, ?_, isValid_true_iff st u o hemp hresp huniq⟩
  · intro hno rsp
    exact isValid_no_employee { st with orgResponsibles := rsp } u o hno
  · intro e hfind hnolink
    exact isValid_no_link st u o e hfind
      (hemp e (List.mem_of_find?_eq_some hfind)) hnolink

def stC7 : DB :=
  ⟨[⟨"e1", "alice", "A", "L"⟩, ⟨"e2", "carol", "C", "L"⟩],
   [⟨"r1", "o1", "e1"⟩], [], [], [], []⟩

/-- Witness for C7: on a store with employees alice (responsible for `o1`)
and carol (responsible for nothing), the check rejects the unknown
username bob (whatever the responsibility table holds), rejects carol for
`o1`, and its truth is characterised for alice. -/
theorem claim7_witness :
    (∀ e ∈ stC7.employees, e.id ≠ "") ∧
    (∀ r ∈ stC7.orgResponsibles, r.id ≠ "") ∧
    (stC7.employees.map (fun e => e.username)).Nodup ∧
    isValidTenderCreator { stC7 with orgResponsibles := [⟨"r9", "o1", "zz"⟩] }
      "bob" "o1" = (false, some errNoRows) ∧
    isValidTenderCreator stC7 "carol" "o1" = (false, some errNoRows) ∧
    ((isValidTenderCreator stC7 "alice" "o1").1 = true ↔
      ∃ e ∈ stC7.employees, e.username = "alice" ∧
        ∃ r ∈ stC7.orgResponsibles, r.organizationId = "o1" ∧ r.userId = e.id) :=
  ⟨by decide, by decide, by decide,
   (claim7_is_valid_tender_creator stC7 "bob" "o1" (by decide) (by decide)
     (by decide)).1 (by decide) [⟨"r9", "o1", "zz"⟩],
   (claim7_is_valid_tender_creator stC7 "carol" "o1" (by decide) (by decide)
     (by decide)).2.1 ⟨"e2", "carol", "C", "L"⟩ (by decide) (by decide),
   (claim7_is_valid_tender_creator stC7 "alice" "o1" (by decide) (by decide)
     (by decide)).2.2⟩

/-! ## Claim C8 -/

/-- A failing tender rollback maps through the handler and
`makeHTTPHandleFunc` to a 400 response whose body depends on whether the
error text equals the formatted version-not-found message. -/
lemma tenderRollback_endpoint_error (st : DB) (tid : String) (k : Int)
    (encT : Tender → String) (e : String) (st₂ : DB)
    (h : RollbackTender st tid k = (Except.error e, st₂)) :
    (tenderRollbackEndpoint st tid k encT).1 =
      if e == versionNotExistMsg k tid
      then ⟨statusBadRequest, "Version does not exist" ++ goExtraInt statusBadRequest⟩
      else ⟨statusBadRequest, "Error rolling back tender: " ++ e⟩ := by
  simp only [tenderRollbackEndpoint, handleTenderRollback, h, makeHTTPHandleFunc]
  by_cases hc : (e == versionNotExistMsg k tid) = true
  · simp [hc]
  · simp only [Bool.not_eq_true] at hc
    simp [hc]

/-- A successful tender rollback maps to a 200 response. -/
lemma tenderRollback_endpoint_ok (st : DB) (tid : String) (k : Int)
    (encT : Tender → String) (t : Tender) (st₂ : DB)
    (h : RollbackTender st tid k = (Except.ok t, st₂)) :
    (tenderRollbackEndpoint st tid k encT).1 = ⟨statusOK, encT t⟩ := by
  simp only [tenderRollbackEndpoint, handleTenderRollback, h, makeHTTPHandleFunc]

/-- The bid analog of `tenderRollback_endpoint_error`. -/
lemma bidRollback_endpoint_error (st : DB) (bidId : String) (k : Int)
    (encB : Bid → String) (e : String) (st₂ : DB)
    (h : RollbackBid st bidId k = (Except.error e, st₂)) :
    (bidRollbackEndpoint st bidId k encB).1 =
      if e == versionNotExistMsg k bidId
      then ⟨statusBadRequest, "Version does not exist" ++ goExtraInt statusBadRequest⟩
      else ⟨statusBadRequest, "Error rolling back tender: " ++ e⟩ := by
  simp only [bidRollbackEndpoint, handleBidRollback, h, makeHTTPHandleFunc]
  by_cases hc : (e == versionNotExistMsg k bidId) = true
  · simp [hc]
  · simp only [Bool.not_eq_true] at hc
    simp [hc]

def stC8 : DB :=
  ⟨[], [], [], [⟨"t1", "n", "d", 1⟩], [], [⟨"b1", "n", "d", 1⟩]⟩

/-- Counterexample to C8 as stated: on `stC8` (a version row whose header
row is absent) the rollback fails with a generic storage error — not the
version-not-found error — yet the HTTP response status is
`statusBadRequest`, the same status as the version-not-found mapping
(final conjunct), because `makeHTTPHandleFunc` writes every handler error
with `http.StatusBadRequest`.  No storage failure is mapped to a response
distinct from bad request. -/
theorem claim8_counterexample :
    RollbackTender stC8 "t1" 1 =
      (Except.error ("failed to retrieve rolled back version: " ++ errNoRows), stC8) ∧
    (tenderRollbackEndpoint stC8 "t1" 1 (fun _ => "")).1 =
      ⟨statusBadRequest,
       "Error rolling back tender: failed to retrieve rolled back version: " ++ errNoRows⟩ ∧
    (tenderRollbackEndpoint stC8 "t1" 2 (fun _ => "")).1 =
      ⟨statusBadRequest, "Version does not exist" ++ goExtraInt statusBadRequest⟩ ∧
    (tenderRollbackEndpoint stC8 "t1" 1 (fun _ => "")).1.status =
      (tenderRollbackEndpoint stC8 "t1" 2 (fun _ => "")).1.status :=
  ⟨rfl, rfl, rfl, rfl⟩

/-- C8 amended: a version-not-found failure is mapped to the bad-request
response with body "Version does not exist"; every other storage failure
is mapped to a response with the same `http.StatusBadRequest` status (not
to a distinct internal-error status), distinguished only by its
"Error rolling back tender: …" body.  Both rollback endpoints behave this
way. -/
theorem claim8_rollback_error_mapping
    (st : DB) (tid : String) (k : Int) (encT : Tender → String)
    (bst : DB) (bidId : String) (bk : Int) (encB : Bid → String) :
    (∀ e st₂, RollbackTender st tid k = (Except.error e, st₂) →
      (tenderRollbackEndpoint st tid k encT).1 =
        if e == versionNotExistMsg k tid
        then ⟨statusBadRequest, "Version does not exist" ++ goExtraInt statusBadRequest⟩
        else ⟨statusBadRequest, "Error rolling back tender: " ++ e⟩) ∧
    (∀ e st₂, RollbackTender st tid k = (Except.error e, st₂) →
      (tenderRollbackEndpoint st tid k encT).1.status = statusBadRequest) ∧
    ((∀ r ∈ st.tenderVersions, ¬(r.entityId = tid ∧ r.version = k)) →
      (tenderRollbackEndpoint st tid k encT).1 =
        ⟨statusBadRequest, "Version does not exist" ++ goExtraInt statusBadRequest⟩) ∧
    (∀ e st₂, RollbackBid bst bidId bk = (Except.error e, st₂) →
      (bidRollbackEndpoint bst bidId bk encB).1 =
        if e == versionNotExistMsg bk bidId
        then ⟨statusBadRequest, "Version does not exist" ++ goExtraInt statusBadRequest⟩
        else ⟨statusBadRequest, "Error rolling back tender: " ++ e⟩) ∧
    (∀ e st₂, RollbackBid bst bidId bk = (Except.error e, st₂) →
      (bidRollbackEndpoint bst bidId bk encB).1.status = statusBadRequest) := by
  refine ⟨fun e st₂ h => tenderRollback_endpoint_error st tid k encT e st₂ h,
          ?_, ?_,
          fun e st₂ h => bidRollback_endpoint_error bst bidId bk encB e st₂ h,
          ?_⟩
  · intro e st₂ h
    rw [tenderRollback_endpoint_error st tid k encT e st₂ h]
    split <;> rfl
  · intro hne
    have hmiss := rollbackTender_missing st tid k hne
    rw [tenderRollback_endpoint_error st tid k encT _ st hmiss]
    simp
  · intro e st₂ h
    rw [bidRollback_endpoint_error bst bidId bk encB e st₂ h]
    split <;> rfl

/-- Witness for the amended C8 at `stC8`: the generic failure of rollback
to version 1 is mapped to status 400, and the missing version 2 to the
400 "Version does not exist" response; same for the bid endpoint. -/
theorem claim8_mapping_witness :
    RollbackTender stC8 "t1" 1 =
      (Except.error ("failed to retrieve rolled back version: " ++ errNoRows), stC8) ∧
    (tenderRollbackEndpoint stC8 "t1" 1 (fun _ => "")).1.status = statusBadRequest ∧
    (∀ r ∈ stC8.tenderVersions, ¬(r.entityId = "t1" ∧ r.version = 2)) ∧
    (tenderRollbackEndpoint stC8 "t1" 2 (fun _ => "")).1 =
      ⟨statusBadRequest, "Version does not exist" ++ goExtraInt statusBadRequest⟩ ∧
    RollbackBid stC8 "b1" 1 =
      (Except.error ("failed to retrieve rolled back version: " ++ errNoRows), stC8) ∧
    (bidRollbackEndpoint stC8 "b1" 1 (fun _ => "")).1.status = statusBadRequest :=
  ⟨rfl,
   (claim8_rollback_error_mapping stC8 "t1" 1 (fun _ => "")
     stC8 "b1" 1 (fun _ => "")).2.1 _ stC8 rfl,
   by decide,
   (claim8_rollback_error_mapping stC8 "t1" 2 (fun _ => "")
     stC8 "b1" 1 (fun _ => "")).2.2.1 (by decide),
   rfl,
   (claim8_rollback_error_mapping stC8 "t1" 1 (fun _ => "")
     stC8 "b1" 1 (fun _ => "")).2.2.2.2 _ stC8 rfl⟩

/-! ## Claim C9 -/

/-- Either injected insert failure makes `CreateBid` fail with the
transaction rolled back: the returned state is the input state. -/
lemma createBid_fail_unchanged (st : DB) (b : Bid) (newId : String) (fh fv : Bool)
    (h : fh = true ∨ fv = true) :
    ∃ msg, CreateBid st b newId fh fv = (Except.error msg, st) := by
  rcases h with h | h
  · subst h
    exact ⟨_, rfl⟩
  · subst h
    cases fh
    · exact ⟨_, rfl⟩
    · exact ⟨_, rfl⟩

/-- Either injected insert failure makes `CreateTender` fail with the
transaction rolled back. -/
lemma createTender_fail_unchanged (st : DB) (t : Tender) (newId : String) (fh fv : Bool)
    (h : fh = true ∨ fv = true) :
    ∃ msg, CreateTender st t newId fh fv = (Except.error msg, st) := by
  rcases h with h | h
  · subst h
    exact ⟨_, rfl⟩
  · subst h
    cases fh
    · exact ⟨_, rfl⟩
    · exact ⟨_, rfl⟩

/-- When the authorization check yields `false`, `createNewBid` fails (with
the check's error if it produced one, else the invalid-creator message)
before any insert: the state is unchanged. -/
lemma createNewBid_not_valid (st : DB) (b : Bid) (newId : String) (fh fv : Bool)
    (h : (isValidTenderCreator st b.creatorUsername b.organizationId).1 = false) :
    ∃ msg, createNewBid st b newId fh fv = (Except.error msg, st) := by
  unfold createNewBid
  cases herr : (isValidTenderCreator st b.creatorUsername b.organizationId).2 with
  | some e =>
    refine ⟨e, ?_⟩
    simp [herr]
  | none =>
    refine ⟨invalidCreatorMsg, ?_⟩
    simp [herr, h]

/-- The tender analog of `createNewBid_not_valid`. -/
lemma createNewTender_not_valid (st : DB) (t : Tender) (newId : String) (fh fv : Bool)
    (h : (isValidTenderCreator st t.creatorUsername t.organizationID).1 = false) :
    ∃ msg, createNewTender st t newId fh fv = (Except.error msg, st) := by
  unfold createNewTender
  cases herr : (isValidTenderCreator st t.creatorUsername t.organizationID).2 with
  | some e =>
    refine ⟨e, ?_⟩
    simp [herr]
  | none =>
    refine ⟨invalidCreatorMsg, ?_⟩
    simp [herr, h]

def stC9 : DB := ⟨[⟨"e1", "alice", "A", "L"⟩], [], [], [], [], []⟩

def bidC9 : Bid := ⟨"", "Offer", "d", "CREATED", "t1", "o1", "alice"⟩

/-- Counterexample to C9 as stated: alice is an employee but not
responsible for `o1`, so the creation is unauthorized; yet `createNewBid`
fails with the propagated `sql.ErrNoRows` of the authorization lookup —
not with the handler's dedicated authorization-error message, whose branch
is unreachable because `isValidTenderCreator` always pairs `false` with a
non-nil error.  (No row is inserted: the state is unchanged.) -/
theorem claim9_counterexample :
    createNewBid stC9 bidC9 "b1" false false = (Except.error errNoRows, stC9) ∧
    errNoRows ≠ invalidCreatorMsg :=
  ⟨rfl, by decide⟩

/-- C9 amended: in a well-formed store, a bid (or tender) creation request
whose creator is not an authorized responsible member of the given
organization fails — with the not-found error propagated from the
authorization lookup rather than a distinct authorization error — and the
state is unchanged: no header row and no version row is inserted.  And
when creation does proceed, the two inserts of `CreateBid`/`CreateTender`
are atomic: if either fails, the returned state is the input state. -/
theorem claim9_unauthorized_no_insert
    (st : DB) (b : Bid) (t : Tender) (newIdB newIdT : String)
    (fh fv fht fvt : Bool)
    (hemp : ∀ e ∈ st.employees, e.id ≠ "")
    (hresp : ∀ r ∈ st.orgResponsibles, r.id ≠ "")
    (huniq : (st.employees.map (fun e => e.username)).Nodup)
    (hnoB : ¬ ∃ e ∈ st.employees, e.username = b.creatorUsername ∧
        ∃ r ∈ st.orgResponsibles, r.organizationId = b.organizationId ∧ r.userId = e.id)
    (hnoT : ¬ ∃ e ∈ st.employees, e.username = t.creatorUsername ∧
        ∃ r ∈ st.orgResponsibles, r.organizationId = t.organizationID ∧ r.userId = e.id) :
    (∃ msg, createNewBid st b newIdB fh fv = (Except.error msg, st)) ∧
    (∃ msg, createNewTender st t newIdT fht fvt = (Except.error msg, st)) ∧
    (fh = true ∨ fv = true →
      ∃ msg, CreateBid st b newIdB fh fv = (Except.error msg, st)) ∧
    (fht = true ∨ fvt = true →
      ∃ msg, CreateTender st t newIdT fht fvt = (Except.error msg, st)) := by
  have hvB : (isValidTenderCreator st b.creatorUsername b.organizationId).1 = false := by
    cases hcase : (isValidTenderCreator st b.creatorUsername b.organizationId).1 with
    | false => rfl
    | true =>
      exact absurd ((isValid_true_iff st _ _ hemp hresp huniq).mp hcase) hnoB
  have hvT : (isValidTenderCreator st t.creatorUsername t.organizationID).1 = false := by
    cases hcase : (isValidTenderCreator st t.creatorUsername t.organizationID).1 with
    | false => rfl
    | true =>
      exact absurd ((isValid_true_iff st _ _ hemp hresp huniq).mp hcase) hnoT
  exact ⟨createNewBid_not_valid st b newIdB fh fv hvB,
         createNewTender_not_valid st t newIdT fht fvt hvT,
         fun h => createBid_fail_unchanged st b newIdB fh fv h,
         fun h => createTender_fail_unchanged st t newIdT fht fvt h⟩

def tenC9 : Tender := ⟨"", "Road works", "d", "Construction", "CREATED", "o1", "alice"⟩

/-- Witness for the amended C9: alice (an employee responsible for
nothing) cannot create a bid or a tender for `o1` — both calls fail with
the state unchanged — and injected insert failures leave the state
unchanged too. -/
theorem claim9_witness :
    (∀ e ∈ stC9.employees, e.id ≠ "") ∧
    (∀ r ∈ stC9.orgResponsibles, r.id ≠ "") ∧
    (stC9.employees.map (fun e => e.username)).Nodup ∧
    (¬ ∃ e ∈ stC9.employees, e.username = bidC9.creatorUsername ∧
        ∃ r ∈ stC9.orgResponsibles,
          r.organizationId = bidC9.organizationId ∧ r.userId = e.id) ∧
    (¬ ∃ e ∈ stC9.employees, e.username = tenC9.creatorUsername ∧
        ∃ r ∈ stC9.orgResponsibles,
          r.organizationId = tenC9.organizationID ∧ r.userId = e.id) ∧
    ((∃ msg, createNewBid stC9 bidC9 "b1" true false = (Except.error msg, stC9)) ∧
     (∃ msg, createNewTender stC9 tenC9 "t1" false true = (Except.error msg, stC9)) ∧
     (true = true ∨ false = true →
       ∃ msg, CreateBid stC9 bidC9 "b1" true false = (Except.error msg, stC9)) ∧
     (false = true ∨ true = true →
       ∃ msg, CreateTender stC9 tenC9 "t1" false true = (Except.error msg, stC9))) :=
  ⟨by decide, by decide, by decide, by decide, by decide,
   claim9_unauthorized_no_insert stC9 bidC9 tenC9 "b1" "t1" true false false true
     (by decide) (by decide) (by decide) (by decide) (by decide)⟩

/-! ## Claim C10 -/

/-- C10: every bid returned by `GetBidsByUsername` or `GetBidsByTenderId`
has `TenderId = ""`: the queries never select the owning-tender column, so
the scanned `Bid` keeps the Go zero value of the field. -/
theorem claim10_listed_bids_empty_tender_id :
    (∀ st u b, b ∈ GetBidsByUsername st u → b.tenderId = "") ∧
    (∀ st tid b, b ∈ GetBidsByTenderId st tid → b.tenderId = "") := by
  constructor
  · intro st u b hb
    obtain ⟨b₀, _, v, _, _, _, _, heq⟩ := (mem_getBidsByUsername st u b).mp hb
    rw [← heq]
    rfl
  · intro st tid b hb
    obtain ⟨b₀, _, _, v, _, _, _, heq⟩ := (mem_getBidsByTenderId st tid b).mp hb
    rw [← heq]
    rfl

def stC10 : DB :=
  ⟨[], [], [], [], [⟨"b1", "t1", "CREATED", "o2", "bob"⟩],
   [⟨"b1", "Offer", "d", 1⟩]⟩

/-- Witness for C10: the single bid listed for bob, and for tender `t1`,
carries `TenderId = ""` although its header row stores `t1`. -/
theorem claim10_witness :
    (⟨"b1", "Offer", "d", "CREATED", "", "o2", "bob"⟩ : Bid)
      ∈ GetBidsByUsername stC10 "bob" ∧
    (⟨"b1", "Offer", "d", "CREATED", "", "o2", "bob"⟩ : Bid)
      ∈ GetBidsByTenderId stC10 "t1" ∧
    (⟨"b1", "Offer", "d", "CREATED", "", "o2", "bob"⟩ : Bid).tenderId = "" ∧
    (stC10.bids.map (fun b => b.tenderId)) = ["t1"] :=
  ⟨by decide, by decide,
   claim10_listed_bids_empty_tender_id.1 stC10 "bob" _ (by decide),
   by decide⟩

end TenderAPI
